import Mathlib

/-!
Verification of the symbol-opener core (mash/symbol-opener).

Shallow embedding of the TypeScript sources:
  - src/src/symbol-kind.ts      (kind vocabulary, parseSymbolKind)
  - src/src/symbol-resolver.ts  (sortByKindPriority, findSymbols, tryResolveSymbol,
                                 resolveSymbol, selectSymbol, selectFuzzyMatch, activateLsp)
  - src/src/handler.ts          (handleUri, processPendingUri)

Host I/O (the workspace-symbol index, quick-pick UI, findFiles, globalState) is
modelled by oracle functions and by explicit effect traces; asynchronous code is
sequentialized, which is faithful because each request runs as a single
non-interleaved task.  JS `Map` insertion/overwrite semantics and the JS falsy
test on strings are modelled explicitly where they matter.

Two behaviours exercised by the repository's current test-suite (kind-hint
broadening and the visible-document short-circuit of index activation) have no
implementing source in the provided files; the definitions for those are marked
`Modelled from the spec:` below and are kept separate from the embedded code.
-/

namespace SymbolOpener

/-- A workspace symbol as the core reads it (vscode.SymbolInformation restricted
to the consumed fields: `name`, `kind`, `containerName`, and the location
collapsed to a file path plus a line number). -/
structure SymbolInformation where
  name : String
  kind : Nat
  containerName : Option String
  path : String
  line : Nat
  deriving DecidableEq, Repr

/-- The kind vocabulary of src/src/symbol-kind.ts `buildKindNameToEnum`,
with the numeric codes of `vscode.SymbolKind` (the same codes the repository's
test-suite mock fixes: File = 0 … TypeParameter = 25). -/
def kindNameToEnum : List (String × Nat) :=
  [("File", 0), ("Module", 1), ("Namespace", 2), ("Package", 3), ("Class", 4),
   ("Method", 5), ("Property", 6), ("Field", 7), ("Constructor", 8), ("Enum", 9),
   ("Interface", 10), ("Function", 11), ("Variable", 12), ("Constant", 13),
   ("String", 14), ("Number", 15), ("Boolean", 16), ("Array", 17), ("Object", 18),
   ("Key", 19), ("Null", 20), ("EnumMember", 21), ("Struct", 22), ("Event", 23),
   ("Operator", 24), ("TypeParameter", 25)]

/-- src/src/symbol-kind.ts `parseSymbolKind`: a plain dictionary lookup that
yields the kind code, or nothing (JS `undefined`) for a name outside the
vocabulary. -/
def parseSymbolKind (kind : String) : Option Nat :=
  kindNameToEnum.lookup kind

/-- The first normalization step of `tryResolveSymbol`
(`s.name.replace(/\(\)$/, '')`): the anchored regex removes exactly one
trailing literal `()` when present and leaves the name unchanged otherwise. -/
def stripParens (s : List Char) : List Char :=
  if ['(', ')'].isSuffixOf s then s.dropLast.dropLast else s

/-- JS `String.prototype.lastIndexOf` as used by `tryResolveSymbol`, with the
sentinel result `-1` rendered as `none`. -/
def jsLastIndexOf (s : List Char) (c : Char) : Option Nat :=
  match s with
  | [] => none
  | a :: rest =>
    match jsLastIndexOf rest c with
    | some r => some (r + 1)
    | none => if a = c then some 0 else none

/-- The matcher's normalization from `tryResolveSymbol`
(src/src/symbol-resolver.ts): strip one trailing `()`, then, when the remainder
contains a `.`, keep `name.substring(dotIndex + 1)` for the last `.`. -/
def normalizeName (s : List Char) : List Char :=
  let name := stripParens s
  match jsLastIndexOf name '.' with
  | some dotIndex => name.drop (dotIndex + 1)
  | none => name

/-- `normalizeName` lifted to `String`. -/
def normalizeNameStr (s : String) : String :=
  ⟨normalizeName s.data⟩

/-- The exact-match test the resolver's filter applies to a raw candidate name:
case-sensitive equality of the normalized candidate name with the query name. -/
def isExactMatch (rawName queryName : String) : Bool :=
  normalizeNameStr rawName == queryName

/-- The suffix of a string strictly after the last occurrence of `c`, or the
string itself when `c` does not occur: the wording of the spec's normalization
step (2), used to compare against the source's lastIndexOf/substring code. -/
def afterLast (c : Char) : List Char → List Char
  | [] => []
  | a :: rest =>
    if c ∈ rest then afterLast c rest
    else if a = c then rest
    else a :: rest

/-- The claim's normalization exactly as the spec words it: strip one trailing
`()` suffix when present, then keep only the substring after the last `.`. -/
def specNormalizeName (s : List Char) : List Char :=
  afterLast '.' (stripParens s)

theorem jsLastIndexOf_eq_none (c : Char) (s : List Char) :
    jsLastIndexOf s c = none ↔ c ∉ s := by
  induction s with
  | nil => simp [jsLastIndexOf]
  | cons a rest ih =>
    simp only [jsLastIndexOf, List.mem_cons]
    cases h : jsLastIndexOf rest c with
    | some r =>
      have hc : c ∈ rest := by
        by_contra hm
        simp [ih.mpr hm] at h
      simp [hc]
    | none =>
      have hc : c ∉ rest := ih.mp h
      by_cases hac : a = c
      · simp [hac]
      · simp only [if_neg hac]
        simp only [true_iff, not_or]
        exact ⟨fun e => hac e.symm, hc⟩

theorem afterLast_eq_drop (c : Char) (s : List Char) :
    afterLast c s =
      (match jsLastIndexOf s c with
       | some i => s.drop (i + 1)
       | none => s) := by
  induction s with
  | nil => rfl
  | cons a rest ih =>
    by_cases hm : c ∈ rest
    · cases h : jsLastIndexOf rest c with
      | none => exact absurd ((jsLastIndexOf_eq_none c rest).mp h) (by simpa using hm)
      | some r =>
        rw [h] at ih
        simp only [afterLast, if_pos hm, jsLastIndexOf, h]
        simp only [List.drop_succ_cons]
        exact ih
    · have h : jsLastIndexOf rest c = none := (jsLastIndexOf_eq_none c rest).mpr hm
      by_cases hac : a = c
      · simp [afterLast, hm, hac, jsLastIndexOf, h]
      · simp [afterLast, hm, hac, jsLastIndexOf, h]

theorem normalizeName_eq_spec (s : List Char) :
    normalizeName s = specNormalizeName s := by
  unfold normalizeName specNormalizeName
  rw [afterLast_eq_drop]

theorem not_mem_afterLast (c : Char) (s : List Char) : c ∉ afterLast c s := by
  induction s with
  | nil => simp [afterLast]
  | cons a rest ih =>
    by_cases hm : c ∈ rest
    · simpa [afterLast, hm] using ih
    · by_cases hac : a = c
      · simp [afterLast, hm, hac]
      · simp only [afterLast, if_neg hm, if_neg hac, List.mem_cons]
        exact fun h => h.elim (fun e => hac e.symm) hm

theorem afterLast_of_not_mem (c : Char) (t : List Char) (h : c ∉ t) :
    afterLast c t = t := by
  cases t with
  | nil => rfl
  | cons a rest =>
    have h1 : c ∉ rest := fun hm => h (List.mem_cons_of_mem _ hm)
    have h2 : a ≠ c := fun e => h (by simp [e])
    simp [afterLast, h1, h2]

theorem not_dot_mem_normalizeName (s : List Char) : '.' ∉ normalizeName s := by
  rw [normalizeName_eq_spec]
  exact not_mem_afterLast '.' (stripParens s)

/-- C6: the matcher normalizes a candidate's raw name by stripping one trailing
literal `()` suffix and keeping only the substring after the last `.`, and it
declares an exact match if and only if that normalized name is case-sensitively
equal to the query name — strict equality, no fuzzy distance scoring. -/
theorem c6_exact_match_iff_normalized (rawName queryName : String) :
    isExactMatch rawName queryName = true ↔
      specNormalizeName rawName.data = queryName.data := by
  unfold isExactMatch
  rw [beq_iff_eq]
  unfold normalizeNameStr
  rw [normalizeName_eq_spec]
  constructor
  · intro h
    have := congrArg String.data h
    simpa using this
  · intro h
    apply String.ext
    simpa using h

/-- C7 counterexample: the raw name "f()()" normalizes to "f()" (only one
trailing `()` is stripped), and normalizing the already-normalized "f()" again
yields "f" — so normalization is not idempotent on every normalized name. -/
theorem c7_not_idempotent_counterexample :
    normalizeName (normalizeName "f()()".data) ≠ normalizeName "f()()".data := by
  decide

/-- C7 amended: normalization is idempotent on every name whose normalized form
does not itself still end in `()` (only raw names carrying a repeated trailing
`()`, such as "f()()", escape this); in particular "createHandler()" normalizes
to "createHandler" and "a.b.c" normalizes to "c". -/
theorem c7_idempotent_amended (s : List Char)
    (h : stripParens (normalizeName s) = normalizeName s) :
    normalizeName (normalizeName s) = normalizeName s ∧
      normalizeName "createHandler()".data = "createHandler".data ∧
      normalizeName "a.b.c".data = "c".data := by
  refine ⟨?_, by decide, by decide⟩
  calc normalizeName (normalizeName s)
      = afterLast '.' (stripParens (normalizeName s)) :=
        (normalizeName_eq_spec (normalizeName s)).trans rfl
    _ = afterLast '.' (normalizeName s) := by rw [h]
    _ = normalizeName s :=
        afterLast_of_not_mem _ _ (not_dot_mem_normalizeName s)

/-- Concrete instantiation of `c7_idempotent_amended` at the name "a.b.c". -/
theorem c7_idempotent_amended_witness :
    stripParens (normalizeName "a.b.c".data) = normalizeName "a.b.c".data ∧
      normalizeName (normalizeName "a.b.c".data) = normalizeName "a.b.c".data :=
  ⟨by decide, (c7_idempotent_amended "a.b.c".data (by decide)).1⟩

/-- src/src/config.ts `LangDetector`: a language detector used by the index
activator (`lang` is the optional language id, `markers` the marker-file
patterns, `glob`/`exclude` the source-file search patterns). -/
structure LangDetector where
  lang : Option String
  markers : List String
  glob : String
  exclude : Option String
  deriving DecidableEq, Repr

/-- The configuration surface the core consumes (src/src/config.ts `Config`),
restricted to the fields the embedded functions read. -/
structure Config where
  language : Option String
  multipleSymbolBehavior : String
  workspaceNotOpenBehavior : String
  symbolNotFoundBehavior : String
  retryCount : Nat
  retryInterval : Nat
  langDetectors : List LangDetector
  symbolSortPriority : List String
  deriving Repr

/-- src/src/config.ts `defaultSymbolSortPriority`. -/
def defaultSymbolSortPriority : List String :=
  ["Class", "Interface", "Struct", "Function", "Method", "Constructor",
   "Constant", "Property", "Field", "Enum", "Variable"]

/-- JS `Map.prototype.set` on an insertion-ordered association list: an
existing key keeps its position and has its value overwritten; a new key is
appended at the end. -/
def mapSet (m : List (Nat × Nat)) (k v : Nat) : List (Nat × Nat) :=
  if (m.lookup k).isSome then
    m.map (fun p => if p.1 = k then (k, v) else p)
  else m ++ [(k, v)]

/-- The priority-map construction loop inside `sortByKindPriority`: each
priority name is parsed through the vocabulary — an unknown name throws
`Invalid SymbolKind in symbolSortPriority` — and its kind code is mapped to
`priorityMap.size` at the moment of insertion (index 0 = highest priority).
`m.length` equals `Map.size` because keys stay distinct. -/
def buildPriorityMap : List String → List (Nat × Nat) → Except String (List (Nat × Nat))
  | [], m => .ok m
  | name :: rest, m =>
    match parseSymbolKind name with
    | none => .error ("Invalid SymbolKind in symbolSortPriority: " ++ name)
    | some kind => buildPriorityMap rest (mapSet m kind m.length)

/-- The sort comparator of `sortByKindPriority` read as a boolean "a comes no
later than b" relation: `priorityMap.get(kind) ?? Infinity` ranks each
candidate (`none` = Infinity).  `Infinity - Infinity` is NaN, which the ES
sort treats as `+0`, so two unlisted kinds compare equal and the stable sort
keeps their original order. -/
def leRank (m : List (Nat × Nat)) (a b : SymbolInformation) : Bool :=
  match m.lookup a.kind, m.lookup b.kind with
  | some x, some y => x ≤ y
  | some _, none => true
  | none, some _ => false
  | none, none => true

/-- Stable insertion: the new element goes after every already-placed element
that compares no later than it. -/
def insertStable {α : Type _} (le : α → α → Bool) (a : α) : List α → List α
  | [] => [a]
  | b :: bs => if le b a then b :: insertStable le a bs else a :: b :: bs

/-- Stable sort by a boolean total preorder.  ES2019 requires
`Array.prototype.sort` to be stable, so for the consistent comparator above the
JS sort computes exactly this order. -/
def jsStableSort {α : Type _} (le : α → α → Bool) (l : List α) : List α :=
  l.foldl (fun acc a => insertStable le a acc) []

/-- src/src/symbol-resolver.ts `sortByKindPriority`: build the priority map
(throwing on an invalid name), then sort a spread copy `[...symbols]` of the
input with the rank comparator. -/
def sortByKindPriority (symbols : List SymbolInformation) (priority : List String) :
    Except String (List SymbolInformation) :=
  match buildPriorityMap priority [] with
  | .error e => .error e
  | .ok priorityMap => .ok (jsStableSort (leRank priorityMap) symbols)

/-- One call of `sortByKindPriority` with the heap made explicit: the contents
of the array passed for `symbols` are threaded through, and the result pairs
the post-call contents of that array with the returned array.  The only sort
in the source is applied to the spread copy `[...symbols]`; no operation in
the function writes through the `symbols` reference. -/
def sortByKindPriorityCall (symbols : List SymbolInformation) (priority : List String) :
    Except String (List SymbolInformation × List SymbolInformation) :=
  match buildPriorityMap priority [] with
  | .error e => .error e
  | .ok priorityMap => .ok (symbols, jsStableSort (leRank priorityMap) symbols)

theorem insertStable_perm {α : Type _} (le : α → α → Bool) (a : α) (l : List α) :
    (insertStable le a l).Perm (a :: l) := by
  induction l with
  | nil => exact List.Perm.refl _
  | cons b bs ih =>
    by_cases h : le b a
    · simp only [insertStable, if_pos h]
      exact (ih.cons b).trans (List.Perm.swap a b bs)
    · simp only [insertStable, if_neg h]
      exact List.Perm.refl _

theorem foldl_insertStable_perm {α : Type _} (le : α → α → Bool) (l : List α) :
    ∀ acc : List α,
      (l.foldl (fun acc a => insertStable le a acc) acc).Perm (acc ++ l) := by
  induction l with
  | nil => intro acc; simp
  | cons a l ih =>
    intro acc
    simp only [List.foldl_cons]
    refine (ih (insertStable le a acc)).trans ?_
    refine ((insertStable_perm le a acc).append_right l).trans ?_
    exact List.perm_middle.symm

theorem jsStableSort_perm {α : Type _} (le : α → α → Bool) (l : List α) :
    (jsStableSort le l).Perm l := by
  simpa using foldl_insertStable_perm le l []

/-- C10: `sortByKindPriority` never mutates its input: for every candidate list
and every priority list accepted by the vocabulary, after the call the input
array still holds exactly its original elements in their original order (the
source sorts only the spread copy `[...symbols]`), and the returned sorted
list is a fresh array whose contents are a permutation of the input. -/
theorem c10_sort_does_not_mutate (symbols : List SymbolInformation)
    (priority : List String) (post sorted : List SymbolInformation)
    (h : sortByKindPriorityCall symbols priority = .ok (post, sorted)) :
    post = symbols ∧ sorted.Perm symbols := by
  unfold sortByKindPriorityCall at h
  cases hb : buildPriorityMap priority [] with
  | error e => rw [hb] at h; cases h
  | ok priorityMap =>
    rw [hb] at h
    injection h with h
    injection h with h1 h2
    subst h1; subst h2
    exact ⟨rfl, jsStableSort_perm _ _⟩

/-- Concrete instantiation of `c10_sort_does_not_mutate`: a Variable/Class pair
under the priority list ["Class", "Variable"]. -/
theorem c10_sort_does_not_mutate_witness :
    ([⟨"A", 12, none, "/a.ts", 0⟩, ⟨"B", 4, none, "/b.ts", 0⟩] :
        List SymbolInformation) =
        [⟨"A", 12, none, "/a.ts", 0⟩, ⟨"B", 4, none, "/b.ts", 0⟩] ∧
      ([⟨"B", 4, none, "/b.ts", 0⟩, ⟨"A", 12, none, "/a.ts", 0⟩] :
          List SymbolInformation).Perm
        [⟨"A", 12, none, "/a.ts", 0⟩, ⟨"B", 4, none, "/b.ts", 0⟩] :=
  c10_sort_does_not_mutate
    [⟨"A", 12, none, "/a.ts", 0⟩, ⟨"B", 4, none, "/b.ts", 0⟩]
    ["Class", "Variable"]
    [⟨"A", 12, none, "/a.ts", 0⟩, ⟨"B", 4, none, "/b.ts", 0⟩]
    [⟨"B", 4, none, "/b.ts", 0⟩, ⟨"A", 12, none, "/a.ts", 0⟩]
    (by rfl)

/-- The result of one `tryResolveSymbol` call (interface `ResolveResult`):
either a selected exact-match symbol, a user cancellation of the exact-match
picker, or the (possibly empty, kind-filtered) fuzzy-match list — `fuzzy []`
is the "no results" case the retry loop sleeps on. -/
inductive TryResult
  | found (s : SymbolInformation)
  | cancelled
  | fuzzy (ms : List SymbolInformation)
  deriving DecidableEq, Repr

/-- The outcome of a full `resolveSymbol` run (the `ResolutionOutcome` of the
spec): found / cancelled / not-found (the source's `{}`). -/
inductive Outcome
  | found (s : SymbolInformation)
  | cancelled
  | notFound
  deriving DecidableEq, Repr

/-- The host collaborators one resolution attempt consumes: the
workspace-symbol index (indexed by the global count of `executeCommand` calls,
so the oracle may answer differently over time), the two quick-picks (`none` =
user dismissed), and the progress token's cancellation flag polled at the
start of each attempt. -/
structure ResolverEnv where
  index : Nat → String → List SymbolInformation
  pickExact : List SymbolInformation → Option SymbolInformation
  pickFuzzy : List SymbolInformation → Option SymbolInformation
  cancelReq : Nat → Bool

/-- src/src/symbol-resolver.ts `findSymbols`: issue the lookup under the two
query transforms in fixed order — `#name` first (the TypeScript LSP requires
the prefix), then the plain name — and return the first non-empty result set,
`[]` when both are empty.  Result: (symbols, queries issued in order, next
call count). -/
def findSymbolsT (env : ResolverEnv) (symbolName : String) (n : Nat) :
    List SymbolInformation × List String × Nat :=
  let q1 := "#" ++ symbolName
  let r1 := env.index n q1
  if r1 ≠ [] then (r1, [q1], n + 1)
  else
    let r2 := env.index (n + 1) symbolName
    if r2 ≠ [] then (r2, [q1, symbolName], n + 2)
    else ([], [q1, symbolName], n + 2)

/-- src/src/symbol-resolver.ts `selectSymbol`: sort by kind priority (an
invalid priority-list name throws), return the single/top candidate under
"first", put the sorted list through the quick-pick under "quickpick" (`none`
= user dismissed), and fall back to the top candidate otherwise. -/
def selectSymbolT (env : ResolverEnv) (symbols : List SymbolInformation)
    (config : Config) : Except String (Option SymbolInformation) :=
  if symbols = [] then .ok none
  else
    match sortByKindPriority symbols config.symbolSortPriority with
    | .error e => .error e
    | .ok sorted =>
      if sorted.length = 1 ∨ config.multipleSymbolBehavior = "first" then
        .ok sorted.head?
      else if config.multipleSymbolBehavior = "quickpick" then
        .ok (env.pickExact sorted)
      else
        .ok sorted.head?

/-- src/src/symbol-resolver.ts `tryResolveSymbol` (the newest provided
variant): an empty round yields `fuzzy []`; otherwise the round's results are
filtered to exact name matches (normalization of §4.2), then by the kind hint
when it parses — a hint without a kind code leaves the filter off; a non-empty
exact set goes through `selectSymbol` (no selection = cancelled); otherwise
the raw round results, kind-filtered the same way, come back as fuzzy
matches. -/
def tryResolveSymbolT (env : ResolverEnv) (config : Config) (symbolName : String)
    (kind : Option String) (n : Nat) :
    Except String (TryResult × List String × Nat) :=
  let (symbols, qs, n1) := findSymbolsT env symbolName n
  if symbols = [] then .ok (TryResult.fuzzy [], qs, n1)
  else
    let nameMatches := symbols.filter (fun s => isExactMatch s.name symbolName)
    let exactMatches :=
      match kind with
      | some k =>
        match parseSymbolKind k with
        | some kindEnum => nameMatches.filter (fun s => s.kind == kindEnum)
        | none => nameMatches
      | none => nameMatches
    if exactMatches ≠ [] then
      match selectSymbolT env exactMatches config with
      | .error e => .error e
      | .ok none => .ok (TryResult.cancelled, qs, n1)
      | .ok (some s) => .ok (TryResult.found s, qs, n1)
    else
      let fuzzyMatches :=
        match kind with
        | some k =>
          match parseSymbolKind k with
          | some kindEnum => symbols.filter (fun s => s.kind == kindEnum)
          | none => symbols
        | none => symbols
      .ok (TryResult.fuzzy fuzzyMatches, qs, n1)

/-- The retry loop body of `resolveSymbol` (the newest provided variant),
recursing on the remaining attempt count; `attempt` is the 0-based attempt
number at which the cancellation token is polled, `n` the global
`executeCommand` call count.  A cancelled or found round, or a non-empty fuzzy
set handed to the fuzzy quick-pick (no selection = cancelled), ends the loop;
only `fuzzy []` sleeps `retryInterval` and recurses.  Returns the outcome
together with every index query issued, in order. -/
def resolveLoopT (env : ResolverEnv) (config : Config) (symbolName : String)
    (kind : Option String) : Nat → Nat → Nat → Except String (Outcome × List String)
  | 0, _, _ => .ok (Outcome.notFound, [])
  | remaining + 1, attempt, n =>
    if env.cancelReq attempt then .ok (Outcome.cancelled, [])
    else
      match tryResolveSymbolT env config symbolName kind n with
      | .error e => .error e
      | .ok (TryResult.cancelled, qs, _) => .ok (Outcome.cancelled, qs)
      | .ok (TryResult.found s, qs, _) => .ok (Outcome.found s, qs)
      | .ok (TryResult.fuzzy ms, qs, n1) =>
        if ms ≠ [] then
          match env.pickFuzzy ms with
          | none => .ok (Outcome.cancelled, qs)
          | some s => .ok (Outcome.found s, qs)
        else
          match resolveLoopT env config symbolName kind remaining (attempt + 1) n1 with
          | .error e => .error e
          | .ok (o, qs2) => .ok (o, qs ++ qs2)

/-- src/src/symbol-resolver.ts `resolveSymbol` (the newest provided variant):
up to `config.retryCount` attempts starting at attempt 0 and call count 0. -/
def resolveSymbolT (env : ResolverEnv) (config : Config) (symbolName : String)
    (kind : Option String) : Except String (Outcome × List String) :=
  resolveLoopT env config symbolName kind config.retryCount 0 0

theorem findSymbolsT_all_empty (env : ResolverEnv) (symbolName : String) (n : Nat)
    (hempty : ∀ m q, env.index m q = []) :
    findSymbolsT env symbolName n = ([], ["#" ++ symbolName, symbolName], n + 2) := by
  simp [findSymbolsT, hempty]

theorem tryResolveSymbolT_all_empty (env : ResolverEnv) (config : Config)
    (symbolName : String) (kind : Option String) (n : Nat)
    (hempty : ∀ m q, env.index m q = []) :
    tryResolveSymbolT env config symbolName kind n =
      .ok (TryResult.fuzzy [], ["#" ++ symbolName, symbolName], n + 2) := by
  unfold tryResolveSymbolT
  rw [findSymbolsT_all_empty env symbolName n hempty]
  rfl

theorem resolveLoopT_all_empty (env : ResolverEnv) (config : Config)
    (symbolName : String) (kind : Option String)
    (hempty : ∀ m q, env.index m q = [])
    (hnc : ∀ a, env.cancelReq a = false) :
    ∀ remaining attempt n,
      resolveLoopT env config symbolName kind remaining attempt n =
        .ok (Outcome.notFound,
             (List.replicate remaining ["#" ++ symbolName, symbolName]).flatten) := by
  intro remaining
  induction remaining with
  | zero => intro attempt n; rfl
  | succ r ih =>
    intro attempt n
    rw [resolveLoopT, hnc attempt,
        tryResolveSymbolT_all_empty env config symbolName kind n hempty]
    simp only [Bool.false_eq_true, if_false, ne_eq, not_true_eq_false, if_neg,
      not_false_eq_true]
    rw [ih (attempt + 1) (n + 2)]
    simp [List.replicate_succ]

/-- C2: for every configured retry count, if the index answers every query
with an empty result set the resolver issues exactly `retryCount` rounds of
exactly 2 queries each — the name with the `#` prefix prepended first, then
the plain name (a round uses the first transform returning a non-empty set) —
and then yields the NotFound outcome. -/
theorem c2_retry_law (env : ResolverEnv) (config : Config) (symbolName : String)
    (kind : Option String)
    (hempty : ∀ m q, env.index m q = [])
    (hnc : ∀ a, env.cancelReq a = false) :
    resolveSymbolT env config symbolName kind =
      .ok (Outcome.notFound,
           (List.replicate config.retryCount ["#" ++ symbolName, symbolName]).flatten) :=
  resolveLoopT_all_empty env config symbolName kind hempty hnc config.retryCount 0 0

/-- An index that never returns results and a user that never interacts. -/
def emptyIndexEnv : ResolverEnv :=
  { index := fun _ _ => [], pickExact := fun _ => none,
    pickFuzzy := fun _ => none, cancelReq := fun _ => false }

/-- A concrete configuration with three retries and the package defaults for
the remaining fields. -/
def threeRetryConfig : Config :=
  { language := none, multipleSymbolBehavior := "first",
    workspaceNotOpenBehavior := "new-window", symbolNotFoundBehavior := "search",
    retryCount := 3, retryInterval := 500, langDetectors := [],
    symbolSortPriority := defaultSymbolSortPriority }

/-- Concrete instantiation of `c2_retry_law`: three all-empty rounds issue the
six queries `#Foo, Foo, #Foo, Foo, #Foo, Foo` and end in NotFound. -/
theorem c2_retry_law_witness :
    resolveSymbolT emptyIndexEnv threeRetryConfig "Foo" none =
      .ok (Outcome.notFound, ["#Foo", "Foo", "#Foo", "Foo", "#Foo", "Foo"]) := by
  have h := c2_retry_law emptyIndexEnv threeRetryConfig "Foo" none
    (fun _ _ => rfl) (fun _ => rfl)
  simpa using h

/-- An environment whose index answers every query with the single
kind-Function candidate "Foo", and whose user never interacts. -/
def fnFooEnv : ResolverEnv :=
  { index := fun _ _ => [⟨"Foo", 11, none, "/p/a.ts", 1⟩],
    pickExact := fun _ => none, pickFuzzy := fun _ => none,
    cancelReq := fun _ => false }

/-- C3 counterexample: with kind hint "Method" and an index that answers every
query with the kind-Function candidate "Foo", the very first query round
returns a non-empty result set, yet the kind filter empties both the exact and
the fuzzy sets, the round is treated exactly like an empty one, and two
further rounds are issued (three `#Foo` queries in total) before NotFound —
refuting "once a query round returns any non-empty result set, no further
query round is ever issued". -/
theorem c3_counterexample :
    fnFooEnv.index 0 "#Foo" ≠ [] ∧
      resolveSymbolT fnFooEnv threeRetryConfig "Foo" (some "Method") =
        .ok (Outcome.notFound, ["#Foo", "#Foo", "#Foo"]) := by
  constructor
  · simp [fnFooEnv]
  · rfl

/-- C3 amended: within one resolution attempt, once a query round returns a
result set that still matters after filtering — an exact match is selected,
the exact-match picker is cancelled, or a non-empty (kind-filtered) fuzzy set
is handed to the fuzzy picker — the retry loop terminates at that round
regardless of its outcome, even when the user cancels the interactive pick:
no query beyond that round's is ever issued.  (A round whose raw results are
entirely removed by the exact-name and kind filters is treated like an empty
round and is retried.) -/
theorem c3_amended (env : ResolverEnv) (config : Config) (symbolName : String)
    (kind : Option String) (remaining attempt n : Nat)
    (res : TryResult) (qs : List String) (n1 : Nat)
    (hnc : env.cancelReq attempt = false)
    (ht : tryResolveSymbolT env config symbolName kind n = .ok (res, qs, n1))
    (hterm : res = TryResult.cancelled ∨ (∃ s, res = TryResult.found s) ∨
       ∃ ms, ms ≠ [] ∧ res = TryResult.fuzzy ms) :
    ∃ o, resolveLoopT env config symbolName kind (remaining + 1) attempt n =
      .ok (o, qs) := by
  rw [resolveLoopT, hnc, ht]
  rcases hterm with h | ⟨s, h⟩ | ⟨ms, hms, h⟩
  · subst h
    exact ⟨Outcome.cancelled, rfl⟩
  · subst h
    exact ⟨Outcome.found s, rfl⟩
  · subst h
    simp only [Bool.false_eq_true, if_false, ne_eq, hms, not_false_eq_true, if_true]
    cases env.pickFuzzy ms with
    | none => exact ⟨Outcome.cancelled, rfl⟩
    | some s => exact ⟨Outcome.found s, rfl⟩

/-- Concrete instantiation of `c3_amended`: with no kind hint, the first round
finds the exact match "Foo" after the single query `#Foo`, and the loop with
two more attempts available stops with that one query in the trace. -/
theorem c3_amended_witness :
    ∃ o, resolveLoopT fnFooEnv threeRetryConfig "Foo" none 3 0 0 =
      .ok (o, ["#Foo"]) :=
  c3_amended fnFooEnv threeRetryConfig "Foo" none 2 0 0
    (TryResult.found ⟨"Foo", 11, none, "/p/a.ts", 1⟩) ["#Foo"] 1
    rfl rfl (Or.inr (Or.inl ⟨_, rfl⟩))

/-- C9 counterexample: "Banana" is outside the kind vocabulary, yet the
resolver surfaces no error and does not abort: the hint is silently dropped
(`parseSymbolKind` yields no code, so the filter is skipped) and resolution
completes normally with the exact match found after one query. -/
theorem c9_counterexample :
    parseSymbolKind "Banana" = none ∧
      resolveSymbolT fnFooEnv threeRetryConfig "Foo" (some "Banana") =
        .ok (Outcome.found ⟨"Foo", 11, none, "/p/a.ts", 1⟩, ["#Foo"]) :=
  ⟨rfl, rfl⟩

theorem tryResolveSymbolT_unknown_kind (env : ResolverEnv) (config : Config)
    (symbolName k : String) (n : Nat) (h : parseSymbolKind k = none) :
    tryResolveSymbolT env config symbolName (some k) n =
      tryResolveSymbolT env config symbolName none n := by
  unfold tryResolveSymbolT
  simp only [h]

theorem resolveLoopT_unknown_kind (env : ResolverEnv) (config : Config)
    (symbolName k : String) (h : parseSymbolKind k = none) :
    ∀ remaining attempt n,
      resolveLoopT env config symbolName (some k) remaining attempt n =
        resolveLoopT env config symbolName none remaining attempt n := by
  intro remaining
  induction remaining with
  | zero => intro attempt n; rfl
  | succ r ih =>
    intro attempt n
    rw [resolveLoopT, resolveLoopT,
        tryResolveSymbolT_unknown_kind env config symbolName k n h]
    cases tryResolveSymbolT env config symbolName none n with
    | error e => rfl
    | ok v =>
      obtain ⟨res, qs, n1⟩ := v
      cases res with
      | cancelled => rfl
      | found s => rfl
      | fuzzy ms =>
        by_cases hms : ms = []
        · subst hms
          simp only [ne_eq, not_true_eq_false, if_false, not_false_eq_true]
          rw [ih (attempt + 1) n1]
        · simp [hms]

/-- C9 amended: a kind hint whose name is outside the fixed kind vocabulary is
not surfaced as an error and does not abort the request — `parseSymbolKind`
yields no kind code, the kind filter is silently skipped, and the entire
resolution behaves exactly as if no kind hint had been supplied.  (Only an
invalid name in the configured sort-priority list raises the
invalid-symbol-kind error.) -/
theorem c9_amended (env : ResolverEnv) (config : Config) (symbolName k : String)
    (h : parseSymbolKind k = none) :
    resolveSymbolT env config symbolName (some k) =
      resolveSymbolT env config symbolName none :=
  resolveLoopT_unknown_kind env config symbolName k h config.retryCount 0 0

/-- Concrete instantiation of `c9_amended` at the unknown hint "Banana". -/
theorem c9_amended_witness :
    resolveSymbolT fnFooEnv threeRetryConfig "Foo" (some "Banana") =
      resolveSymbolT fnFooEnv threeRetryConfig "Foo" none :=
  c9_amended fnFooEnv threeRetryConfig "Foo" "Banana" rfl

/-- Modelled from the spec: the kind-hint filter of the current resolver.  The
handler revision the repository's test-suite exercises (`kind=Function`
matching Method and Constructor candidates) is missing from the provided
sources — only its tests are present — so the filter follows the spec's
kind-filter semantics: a "Function" hint accepts the Function (11), Method (5)
and Constructor (8) kind codes; every other hint accepts exactly its own kind
code; a hint that parses to no kind code does not constrain the candidate
(the filter is skipped, as in the provided `tryResolveSymbol`). -/
def kindHintMatches (hint : String) (candidateKind : Nat) : Bool :=
  match parseSymbolKind hint with
  | none => true
  | some kindEnum =>
    if kindEnum == 11 then
      candidateKind == 11 || candidateKind == 5 || candidateKind == 8
    else candidateKind == kindEnum

/-- C1: a candidate satisfies the "Function" kind filter iff its kind code is
Function (11), Method (5) or Constructor (8); for every other hint in the
vocabulary a candidate satisfies the filter iff its kind code equals the
hint's own code exactly. -/
theorem c1_kind_filter (s : SymbolInformation) :
    (kindHintMatches "Function" s.kind = true ↔
       (s.kind = 11 ∨ s.kind = 5 ∨ s.kind = 8)) ∧
      (∀ hint code, (hint, code) ∈ kindNameToEnum → hint ≠ "Function" →
        (kindHintMatches hint s.kind = true ↔ s.kind = code)) := by
  constructor
  · simp [kindHintMatches, parseSymbolKind, kindNameToEnum, List.lookup, or_assoc]
  · intro hint code hmem hne
    fin_cases hmem <;>
      simp_all [kindHintMatches, parseSymbolKind, kindNameToEnum, List.lookup]

/-- Concrete instantiations of `c1_kind_filter`: a Method (5) candidate passes
the "Function" filter; a Class (4) candidate passes the "Class" filter. -/
theorem c1_kind_filter_witness :
    kindHintMatches "Function" 5 = true ∧ kindHintMatches "Class" 4 = true :=
  ⟨(c1_kind_filter ⟨"m", 5, none, "/x", 0⟩).1.mpr (Or.inr (Or.inl rfl)),
   ((c1_kind_filter ⟨"c", 4, none, "/x", 0⟩).2 "Class" 4 (by decide)
      (by decide)).mpr rfl⟩

/-- A filesystem/host action of the index activator. -/
inductive FsEffect
  | findFiles (pattern : String) (exclude : Option String)
  | openDoc (path : String)
  deriving DecidableEq, Repr

/-- The host file-search oracle: what `vscode.workspace.findFiles` answers for
an include pattern and an exclude pattern (`maxResults 1` is modelled by
reading only the head of the answer). -/
structure ActivateEnv where
  findFilesRes : String → Option String → List String

/-- The per-detector marker scan of `activateLsp` (src/src/symbol-resolver.ts):
probe each marker pattern in order; on the first marker hit, search the
detector's source glob and silently open the first hit, then stop; markers
that all miss contribute only their probe effects.  The Bool records whether a
marker was found — the source then returns from the whole function even when
no source file was subsequently found. -/
def markerScan (env : ActivateEnv) (glob : String) (exclude : Option String) :
    List String → List FsEffect × Bool
  | [] => ([], false)
  | marker :: rest =>
    if env.findFilesRes marker none ≠ [] then
      match (env.findFilesRes glob exclude).head? with
      | some f =>
        ([FsEffect.findFiles marker none, FsEffect.findFiles glob exclude,
          FsEffect.openDoc f], true)
      | none =>
        ([FsEffect.findFiles marker none, FsEffect.findFiles glob exclude], true)
    else
      let (effs, found) := markerScan env glob exclude rest
      (FsEffect.findFiles marker none :: effs, found)

/-- The detector iteration of `activateLsp`: stop at the first detector whose
marker scan hits. -/
def detectorLoop (env : ActivateEnv) : List LangDetector → List FsEffect
  | [] => []
  | d :: rest =>
    let (effs, found) := markerScan env d.glob d.exclude d.markers
    if found then effs else effs ++ detectorLoop env rest

/-- Modelled from the spec: the current `activateLsp`.  The revision the
repository's test-suite exercises — skipping activation when a visible/open
document already matches a configured detector — is missing from the provided
sources; only its tests are present.  Step 1 (the visible-document check, with
the detector list restricted to the configured language override, if any)
follows the spec's wording; the fallthrough steps are embedded from the newest
provided `activateLsp` source (language-override search first, then marker
detection).  `docMatchesDetector` is the host's judgement that a document's
file extension belongs to a detector (glob matching is host semantics). -/
def activateLspT (env : ActivateEnv)
    (docMatchesDetector : LangDetector → String → Bool)
    (visibleDocs : List String) (langDetectors : List LangDetector)
    (language : Option String) : List FsEffect :=
  let relevant :=
    match language with
    | some l => langDetectors.filter (fun (d : LangDetector) => d.lang == some l)
    | none => langDetectors
  if visibleDocs.any (fun doc => relevant.any (fun d => docMatchesDetector d doc)) then
    []
  else
    match language with
    | some l =>
      match langDetectors.find? (fun (d : LangDetector) => d.lang == some l) with
      | some d =>
        match (env.findFilesRes d.glob d.exclude).head? with
        | some f => [FsEffect.findFiles d.glob d.exclude, FsEffect.openDoc f]
        | none => [FsEffect.findFiles d.glob d.exclude]
      | none => detectorLoop env langDetectors
    | none => detectorLoop env langDetectors

/-- C8: whenever some visible or open document already matches one of the
configured detectors (restricted to the configured language override, if any),
index activation takes no action at all: it opens no file and performs no
marker or glob filesystem search. -/
theorem c8_visible_doc_short_circuit (env : ActivateEnv)
    (docMatchesDetector : LangDetector → String → Bool)
    (visibleDocs : List String) (langDetectors : List LangDetector)
    (language : Option String) (doc : String) (d : LangDetector)
    (hdoc : doc ∈ visibleDocs)
    (hd : d ∈ (match language with
               | some l => langDetectors.filter (fun (d : LangDetector) => d.lang == some l)
               | none => langDetectors))
    (hmatch : docMatchesDetector d doc = true) :
    activateLspT env docMatchesDetector visibleDocs langDetectors language = [] := by
  unfold activateLspT
  rw [if_pos]
  exact List.any_eq_true.mpr ⟨doc, hdoc, List.any_eq_true.mpr ⟨d, hd, hmatch⟩⟩

/-- Concrete instantiation of `c8_visible_doc_short_circuit`: a visible
`main.go` matching the Go detector suppresses all activator effects. -/
theorem c8_visible_doc_short_circuit_witness :
    activateLspT ⟨fun _ _ => ["/project/x.go"]⟩
      (fun d doc => d.glob == "**/*.go" && ['.', 'g', 'o'].isSuffixOf doc.data)
      ["/project/main.go"]
      [⟨some "go", ["go.mod"], "**/*.go", some "**/vendor/**"⟩] none = [] :=
  c8_visible_doc_short_circuit ⟨fun _ _ => ["/project/x.go"]⟩
    (fun d doc => d.glob == "**/*.go" && ['.', 'g', 'o'].isSuffixOf doc.data)
    ["/project/main.go"]
    [⟨some "go", ["go.mod"], "**/*.go", some "**/vendor/**"⟩] none
    "/project/main.go" ⟨some "go", ["go.mod"], "**/*.go", some "**/vendor/**"⟩
    (by decide) (by decide) (by decide)

/-- src/src/handler.ts `PendingUri`: the persisted pending request (symbol
name, project path, optional kind hint). -/
structure PendingUri where
  symbol : String
  cwd : String
  kind : Option String
  deriving DecidableEq, Repr

/-- An observable action of the URI handler / handoff coordinator.  Index
queries happen only inside `openSymbol` (the resolution pipeline of
`activateLsp` + `resolveSymbol`), so a trace without an `openSymbol` marker
issues no symbol query in the current instance. -/
inductive HandlerEffect
  | showError (msg : String)
  | savePending (p : PendingUri)
  | openFolder (path : String) (newWindow : Bool)
  | clearPending
  | openSymbol (symbol : String) (kind : Option String)
  deriving DecidableEq, Repr

/-- src/src/handler.ts `handleUri`, with the URI's query parameters already
extracted (`params.get` yields `none` for a missing key), the open workspace
folders and the `globalState` slot passed explicitly, and the result the pair
(post-call pending-request slot, ordered effect trace).  The JS falsy test
`!symbol || !cwd` is true for a missing or an empty-string parameter.  The
single `globalState.update(PENDING_URI_KEY, pendingUri)` overwrites whatever
record the well-known key held. -/
def handleUriT (symbol cwd : Option String) (kind : Option String)
    (config : Config) (workspaceFolders : List String) (hasGlobalState : Bool)
    (store : Option PendingUri) : Option PendingUri × List HandlerEffect :=
  match symbol, cwd with
  | some s, some c =>
    if s = "" ∨ c = "" then
      (store,
       [HandlerEffect.showError "Symbol Opener: Missing required parameters (symbol, cwd)"])
    else if workspaceFolders.contains c then
      (store, [HandlerEffect.openSymbol s kind])
    else if config.workspaceNotOpenBehavior = "error" then
      (store,
       [HandlerEffect.showError
          ("Workspace \"" ++ c ++ "\" is not open. Please open it first.")])
    else if hasGlobalState then
      (some ⟨s, c, kind⟩,
       [HandlerEffect.savePending ⟨s, c, kind⟩,
        HandlerEffect.openFolder c (config.workspaceNotOpenBehavior == "new-window")])
    else
      (store,
       [HandlerEffect.openFolder c (config.workspaceNotOpenBehavior == "new-window")])
  | _, _ =>
    (store,
     [HandlerEffect.showError "Symbol Opener: Missing required parameters (symbol, cwd)"])

/-- src/src/handler.ts `processPendingUri`: read the pending record (nothing
to do without a `globalState` or a record); when the recorded project path is
one of this instance's open folders, clear the slot first and then run the
normal pipeline (`openSymbol`) for the recorded symbol; otherwise leave the
record untouched and take no further action. -/
def processPendingUriT (hasGlobalState : Bool) (store : Option PendingUri)
    (workspaceFolders : List String) : Option PendingUri × List HandlerEffect :=
  if ¬hasGlobalState then (store, [])
  else
    match store with
    | none => (store, [])
    | some pending =>
      if workspaceFolders.contains pending.cwd then
        (none,
         [HandlerEffect.clearPending,
          HandlerEffect.openSymbol pending.symbol pending.kind])
      else (store, [])

/-- C4: a request whose target project path matches no open folder, under
not-open policy "new-window" with the durable store available, persists
exactly one `PendingRequest` holding the request's symbol name, project path
and kind hint — the write to the single well-known key overwriting whatever
record was there — issues exactly one open-project call with
new-instance = true, and issues no symbol query (no `openSymbol` effect) in
the current instance. -/
theorem c4_handoff_new_window (s c : String) (kind : Option String)
    (config : Config) (workspaceFolders : List String) (store : Option PendingUri)
    (hs : s ≠ "") (hc : c ≠ "")
    (hnotopen : c ∉ workspaceFolders)
    (hpolicy : config.workspaceNotOpenBehavior = "new-window") :
    handleUriT (some s) (some c) kind config workspaceFolders true store =
        (some ⟨s, c, kind⟩,
         [HandlerEffect.savePending ⟨s, c, kind⟩, HandlerEffect.openFolder c true]) ∧
      ∀ q k, HandlerEffect.openSymbol q k ∉
        (handleUriT (some s) (some c) kind config workspaceFolders true store).2 := by
  have heq : handleUriT (some s) (some c) kind config workspaceFolders true store =
      (some ⟨s, c, kind⟩,
       [HandlerEffect.savePending ⟨s, c, kind⟩, HandlerEffect.openFolder c true]) := by
    simp [handleUriT, hs, hc, hnotopen, hpolicy]
  refine ⟨heq, ?_⟩
  intro q k
  rw [heq]
  simp

/-- Concrete instantiation of `c4_handoff_new_window`: requesting "/p" while
only "/q" is open persists the single pending record and opens "/p" in a new
window. -/
theorem c4_handoff_new_window_witness :
    handleUriT (some "Foo") (some "/p") (some "Function") threeRetryConfig
        ["/q"] true none =
      (some ⟨"Foo", "/p", some "Function"⟩,
       [HandlerEffect.savePending ⟨"Foo", "/p", some "Function"⟩,
        HandlerEffect.openFolder "/p" true]) :=
  (c4_handoff_new_window "Foo" "/p" (some "Function") threeRetryConfig ["/q"] none
    (by decide) (by decide) (by decide) rfl).1

/-- C5: an instance whose open folders include the pending record's project
path clears the durable slot before beginning resolution (the `clearPending`
effect precedes the pipeline) and then runs the very trace a normal request
for the recorded symbol would produce in an open workspace; an instance whose
open folders do not include that path leaves the slot untouched and performs
no action at all. -/
theorem c5_pending_consumption (pending : PendingUri) (config : Config)
    (workspaceFolders : List String) (priorStore : Option PendingUri) :
    (pending.cwd ∈ workspaceFolders → pending.symbol ≠ "" → pending.cwd ≠ "" →
       processPendingUriT true (some pending) workspaceFolders =
         (none,
          HandlerEffect.clearPending ::
            (handleUriT (some pending.symbol) (some pending.cwd) pending.kind
               config workspaceFolders true priorStore).2)) ∧
      (pending.cwd ∉ workspaceFolders →
        processPendingUriT true (some pending) workspaceFolders =
          (some pending, [])) := by
  constructor
  · intro hopen hsym hcwd
    simp [processPendingUriT, handleUriT, hopen, hsym, hcwd]
  · intro hnotopen
    simp [processPendingUriT, hnotopen]

/-- Concrete instantiations of `c5_pending_consumption`: the record for "/p"
is consumed (cleared, then resolved) by an instance with "/p" open, and left
untouched by an instance with only "/q" open. -/
theorem c5_pending_consumption_witness :
    processPendingUriT true (some ⟨"Bar", "/p", none⟩) ["/p"] =
        (none,
         [HandlerEffect.clearPending, HandlerEffect.openSymbol "Bar" none]) ∧
      processPendingUriT true (some ⟨"Bar", "/p", none⟩) ["/q"] =
        (some ⟨"Bar", "/p", none⟩, []) :=
  ⟨(c5_pending_consumption ⟨"Bar", "/p", none⟩ threeRetryConfig ["/p"] none).1
     (by decide) (by decide) (by decide),
   (c5_pending_consumption ⟨"Bar", "/p", none⟩ threeRetryConfig ["/q"] none).2
     (by decide)⟩

end SymbolOpener
